import Mathlib

/-!
Verification development for the crawl pipeline of new-crawl-law-data
(src/main.py and src/utils). The persisted CSV ledger download_urls.csv is
modelled as a list of rows; a pandas NaN arising from an empty CSV cell is
modelled by Option String (none = empty cell), so pd.notna corresponds to
Option.isSome. Timestamps are abstract ticks supplied by the caller.
-/

namespace Crawl

/-- One row of the download_urls.csv ledger, with the columns written by
ProgressTracker._init_file (src/utils/progress.py:27-41): timestamp,
page_url, doc_url, pdf_url, url_status, download_status. -/
structure Row where
  timestamp : Nat
  page_url : String
  doc_url : Option String
  pdf_url : Option String
  url_status : String
  download_status : String
  deriving Repr, DecidableEq

/-- The ledger is the parsed contents of the CSV file, in file order. -/
abbrev Ledger := List Row

/-- Round trip of a string field through CSV and pandas: an empty string is
written as an empty cell and read back as NaN, that is none. -/
def strToOpt (s : String) : Option String :=
  if s = "" then none else some s

/-- UrlCollector.save_urls (src/utils/url_collector.py:195-223): opens the
CSV in append mode and unconditionally writes one new row holding the given
values, with the current time as timestamp. -/
def save_urls (led : Ledger) (t : Nat)
    (page_url doc_url pdf_url url_status download_status : String) : Ledger :=
  led ++ [{ timestamp := t, page_url := page_url, doc_url := strToOpt doc_url,
            pdf_url := strToOpt pdf_url, url_status := url_status,
            download_status := download_status }]

/-- All rows of the ledger keyed by the given page URL. -/
def rowsFor (led : Ledger) (u : String) : Ledger :=
  led.filter (fun r => r.page_url == u)

/-- A concrete one-row ledger used to exercise save_urls on an existing key. -/
def c1Ledger : Ledger :=
  [{ timestamp := 0, page_url := "https://x/1", doc_url := none, pdf_url := none,
     url_status := "FAILED", download_status := "NOT_STARTED" }]

/-- C1 counterexample: committing a collection result through save_urls for a
page URL that already has a row does not leave exactly one row for that URL;
the write is a CSV append, so the ledger afterwards holds two rows keyed by
the URL. This refutes the claim that the write is an in-place upsert that
never appends a duplicate row. -/
theorem save_urls_not_upsert :
    ¬ (rowsFor (save_urls c1Ledger 1 "https://x/1" "d1" "" "FOUND" "NOT_STARTED")
        "https://x/1").length = 1 := by
  decide

/-- C1 (amended): save_urls appends one row carrying the given values, so a
commit for a page URL that already has a row increases the number of rows
keyed by that URL by one (a duplicate), with the latest values carried by the
appended final row; it is an append, not an in-place upsert. -/
theorem save_urls_appends (led : Ledger) (t : Nat)
    (u doc_url pdf_url url_status download_status : String) :
    (rowsFor (save_urls led t u doc_url pdf_url url_status download_status) u).length
      = (rowsFor led u).length + 1 ∧
    (save_urls led t u doc_url pdf_url url_status download_status).getLast?
      = some { timestamp := t, page_url := u, doc_url := strToOpt doc_url,
               pdf_url := strToOpt pdf_url, url_status := url_status,
               download_status := download_status } := by
  constructor
  · simp [save_urls, rowsFor, List.filter_append]
  · simp [save_urls]

/-- C1 witness: the amended statement evaluated on the concrete one-row
ledger. -/
theorem save_urls_appends_witness :
    (rowsFor (save_urls c1Ledger 1 "https://x/1" "d1" "" "FOUND" "NOT_STARTED")
        "https://x/1").length = (rowsFor c1Ledger "https://x/1").length + 1 ∧
    (save_urls c1Ledger 1 "https://x/1" "d1" "" "FOUND" "NOT_STARTED").getLast?
      = some { timestamp := 1, page_url := "https://x/1", doc_url := strToOpt "d1",
               pdf_url := strToOpt "", url_status := "FOUND",
               download_status := "NOT_STARTED" } :=
  save_urls_appends c1Ledger 1 "https://x/1" "d1" "" "FOUND" "NOT_STARTED"

/-- A download task as built by ProgressTracker.get_pending_downloads
(src/utils/progress.py:150-169): the dict with keys page_url, url, type. -/
structure DownloadTask where
  page_url : String
  url : String
  type : String
  deriving Repr, DecidableEq

/-- The pending predicate of get_pending_downloads (src/utils/progress.py:
145-148): url_status is FOUND and download_status is NOT_STARTED. -/
def pendingPred (r : Row) : Bool :=
  r.url_status == "FOUND" && r.download_status == "NOT_STARTED"

/-- The tasks one matching row contributes: one doc task when its doc_url
cell is non-empty, then one pdf task when its pdf_url cell is non-empty.
This definition follows the wording of the spec (one task per non-empty url
field) and is compared against the source loop below. -/
def rowTasks (r : Row) : List DownloadTask :=
  (match r.doc_url with
   | some u => [{ page_url := r.page_url, url := u, type := "doc" }]
   | none => []) ++
  (match r.pdf_url with
   | some u => [{ page_url := r.page_url, url := u, type := "pdf" }]
   | none => [])

/-- ProgressTracker.get_pending_downloads (src/utils/progress.py:134-172):
filters the ledger to rows with url_status FOUND and download_status
NOT_STARTED, then iterates the matching rows in order, appending a doc task
when pd.notna(doc_url) and a pdf task when pd.notna(pdf_url). -/
def get_pending_downloads (led : Ledger) : List DownloadTask :=
  let found_urls := led.filter pendingPred
  found_urls.foldl
    (fun pending r =>
      let withDoc :=
        match r.doc_url with
        | some u => pending ++ [{ page_url := r.page_url, url := u, type := "doc" }]
        | none => pending
      match r.pdf_url with
      | some u => withDoc ++ [{ page_url := r.page_url, url := u, type := "pdf" }]
      | none => withDoc)
    []

/-- The derivation stated by the spec: exactly the matching rows, one task
per non-empty url field of each, and nothing else. -/
def specPendingTasks (led : Ledger) : List DownloadTask :=
  (led.filter pendingPred).flatMap rowTasks

theorem pending_step_eq (pending : List DownloadTask) (r : Row) :
    (match r.pdf_url with
     | some u =>
        (match r.doc_url with
         | some v => pending ++ [{ page_url := r.page_url, url := v, type := "doc" }]
         | none => pending) ++ [{ page_url := r.page_url, url := u, type := "pdf" }]
     | none =>
        match r.doc_url with
        | some v => pending ++ [{ page_url := r.page_url, url := v, type := "doc" }]
        | none => pending)
      = pending ++ rowTasks r := by
  cases hd : r.doc_url <;> cases hp : r.pdf_url <;> simp [rowTasks, hd, hp]

theorem pending_foldl_eq (rs : List Row) (acc : List DownloadTask) :
    rs.foldl
      (fun pending r =>
        let withDoc :=
          match r.doc_url with
          | some u => pending ++ [{ page_url := r.page_url, url := u, type := "doc" }]
          | none => pending
        match r.pdf_url with
        | some u => withDoc ++ [{ page_url := r.page_url, url := u, type := "pdf" }]
        | none => withDoc)
      acc
      = acc ++ rs.flatMap rowTasks := by
  induction rs generalizing acc with
  | nil => simp
  | cons r rs ih =>
      simp only [List.foldl_cons, List.flatMap_cons]
      rw [ih]
      rw [pending_step_eq]
      simp [List.append_assoc]

/-- C2: get_pending_downloads returns exactly one task per non-empty doc_url
and one per non-empty pdf_url of every row whose url_status is FOUND and
whose download_status is NOT_STARTED, and no task for any other row: it
equals the spec-shaped derivation, and membership is characterised by the
pending predicate. -/
theorem get_pending_downloads_exact (led : Ledger) :
    get_pending_downloads led = specPendingTasks led ∧
    ∀ t : DownloadTask,
      t ∈ get_pending_downloads led ↔
        ∃ r ∈ led, r.url_status = "FOUND" ∧ r.download_status = "NOT_STARTED" ∧
          t ∈ rowTasks r := by
  have heq : get_pending_downloads led = specPendingTasks led := by
    unfold get_pending_downloads specPendingTasks
    simpa using pending_foldl_eq (led.filter pendingPred) []
  refine ⟨heq, fun t => ?_⟩
  rw [heq]
  unfold specPendingTasks
  simp only [List.mem_flatMap, List.mem_filter, pendingPred, Bool.and_eq_true, beq_iff_eq]
  constructor
  · rintro ⟨r, ⟨hr, hs, hd⟩, ht⟩
    exact ⟨r, hr, hs, hd, ht⟩
  · rintro ⟨r, hr, hs, hd, ht⟩
    exact ⟨r, ⟨hr, hs, hd⟩, ht⟩

/-- C2 witness: the characterisation evaluated on the concrete one-row
ledger. -/
theorem get_pending_downloads_exact_witness :
    get_pending_downloads c1Ledger = specPendingTasks c1Ledger ∧
    ∀ t : DownloadTask,
      t ∈ get_pending_downloads c1Ledger ↔
        ∃ r ∈ c1Ledger, r.url_status = "FOUND" ∧ r.download_status = "NOT_STARTED" ∧
          t ∈ rowTasks r :=
  get_pending_downloads_exact c1Ledger

/-- ProgressTracker.filter_unprocessed_urls (src/utils/progress.py:116-132):
reads the set of page_url values present in the ledger and keeps exactly the
candidate urls not in that set; a missing progress file behaves like the
empty ledger. -/
def filter_unprocessed_urls (urls : List String) (led : Ledger) : List String :=
  let processed_urls := led.map Row.page_url
  urls.filter (fun url => !(processed_urls.contains url))

/-- A ledger whose single row is present but not downloaded. -/
def c3Ledger : Ledger :=
  [{ timestamp := 0, page_url := "https://x/1", doc_url := some "d1", pdf_url := none,
     url_status := "FOUND", download_status := "NOT_STARTED" }]

/-- C3 counterexample: the claim says a candidate whose ledger row has a
download status other than DONE is still returned as unprocessed; here the
single row has download_status NOT_STARTED, yet the filter removes the
candidate, returning the empty list. -/
theorem filter_unprocessed_urls_drops_not_started :
    filter_unprocessed_urls ["https://x/1"] c3Ledger = [] ∧
    c3Ledger.map Row.download_status = ["NOT_STARTED"] := by
  constructor
  · rfl
  · rfl

/-- C3 (amended): the filter removes every candidate whose page_url is
present in the ledger at all, regardless of its download status: a url is
returned exactly when it is a candidate and no ledger row carries it. -/
theorem filter_unprocessed_urls_removes_all_present (urls : List String)
    (led : Ledger) :
    ∀ u, u ∈ filter_unprocessed_urls urls led ↔
      (u ∈ urls ∧ ∀ r ∈ led, r.page_url ≠ u) := by
  intro u
  simp only [filter_unprocessed_urls, List.mem_filter, Bool.not_eq_true',
    List.contains, List.elem_eq_mem, decide_eq_false_iff_not, List.mem_map]
  constructor
  · rintro ⟨hu, hnp⟩
    exact ⟨hu, fun r hr he => hnp ⟨r, hr, he⟩⟩
  · rintro ⟨hu, hall⟩
    exact ⟨hu, fun ⟨r, hr, he⟩ => hall r hr he⟩

/-- C3 witness: the amended characterisation evaluated at the concrete
ledger and candidate list. -/
theorem filter_unprocessed_urls_removes_all_present_witness :
    ∀ u, u ∈ filter_unprocessed_urls ["https://x/1"] c3Ledger ↔
      (u ∈ ["https://x/1"] ∧ ∀ r ∈ c3Ledger, r.page_url ≠ u) :=
  filter_unprocessed_urls_removes_all_present ["https://x/1"] c3Ledger

/-- ProgressTracker.update_download_status (src/utils/progress.py:174-193):
builds the boolean mask page_url == given url; when some row matches it sets
download_status on exactly the masked rows and rewrites the file, otherwise
it leaves the file untouched and logs a warning. The second component of the
result records whether the warning was logged. -/
def update_download_status (led : Ledger) (page_url status : String) :
    Ledger × Bool :=
  if led.any (fun r => r.page_url == page_url) then
    (led.map (fun r =>
        if r.page_url == page_url then { r with download_status := status } else r),
      false)
  else
    (led, true)

/-- C7: update_download_status keeps the number of rows, changes at most the
download_status field and only on rows keyed by the given page_url (every
other field of every row, and every non-matching row entirely, is left
unchanged, while each matching row receives the new status); when no row
matches, the ledger is returned entirely unchanged with the warning flag
set, and when a row matches the warning flag is clear. -/
theorem update_download_status_frame (led : Ledger) (u s : String) :
    ((update_download_status led u s).1.length = led.length) ∧
    (∀ (i : Nat) (r r' : Row), led[i]? = some r →
        (update_download_status led u s).1[i]? = some r' →
        (r'.timestamp = r.timestamp ∧ r'.page_url = r.page_url ∧
         r'.doc_url = r.doc_url ∧ r'.pdf_url = r.pdf_url ∧
         r'.url_status = r.url_status) ∧
        (r.page_url ≠ u → r' = r) ∧
        (r.page_url = u → r'.download_status = s)) ∧
    ((∀ r ∈ led, r.page_url ≠ u) → update_download_status led u s = (led, true)) ∧
    ((∃ r ∈ led, r.page_url = u) → (update_download_status led u s).2 = false) := by
  by_cases h : led.any (fun r => r.page_url == u) = true
  · rw [update_download_status, if_pos h]
    refine ⟨List.length_map _ _, ?_, ?_, fun _ => rfl⟩
    · intro i r r' h1 h2
      rw [List.getElem?_map, h1, Option.map_some'] at h2
      obtain rfl : _ = r' := Option.some.inj h2
      by_cases hru : r.page_url = u
      · simp [hru]
      · simp [hru]
    · intro hall
      exfalso
      obtain ⟨r, hr, hbeq⟩ := List.any_eq_true.mp h
      exact hall r hr (by simpa using hbeq)
  · rw [update_download_status, if_neg h]
    have hnone : ∀ r ∈ led, r.page_url ≠ u := by
      intro r hr he
      exact h (List.any_eq_true.mpr ⟨r, hr, by simpa using he⟩)
    refine ⟨rfl, ?_, fun _ => rfl, ?_⟩
    · intro i r r' h1 h2
      rw [h1] at h2
      obtain rfl : r = r' := Option.some.inj h2
      have hr : r ∈ led := List.getElem?_mem h1
      exact ⟨⟨rfl, rfl, rfl, rfl, rfl⟩, fun _ => rfl,
        fun he => absurd he (hnone r hr)⟩
    · rintro ⟨r, hr, he⟩
      exact absurd he (hnone r hr)

/-- C7 witness: the frame statement evaluated at the concrete ledger. -/
theorem update_download_status_frame_witness :
    ((update_download_status c3Ledger "https://x/1" "DONE").1.length
        = c3Ledger.length) ∧
    (∀ (i : Nat) (r r' : Row), c3Ledger[i]? = some r →
        (update_download_status c3Ledger "https://x/1" "DONE").1[i]? = some r' →
        (r'.timestamp = r.timestamp ∧ r'.page_url = r.page_url ∧
         r'.doc_url = r.doc_url ∧ r'.pdf_url = r.pdf_url ∧
         r'.url_status = r.url_status) ∧
        (r.page_url ≠ "https://x/1" → r' = r) ∧
        (r.page_url = "https://x/1" → r'.download_status = "DONE")) ∧
    ((∀ r ∈ c3Ledger, r.page_url ≠ "https://x/1") →
        update_download_status c3Ledger "https://x/1" "DONE" = (c3Ledger, true)) ∧
    ((∃ r ∈ c3Ledger, r.page_url = "https://x/1") →
        (update_download_status c3Ledger "https://x/1" "DONE").2 = false) :=
  update_download_status_frame c3Ledger "https://x/1" "DONE"

/-- Outcome of one extraction attempt inside UrlCollector.collect_urls: ok
carries the doc and pdf links read from the page (empty string = none found);
err stands for a raised recoverable error (navigation timeout, transient
network, HTTP error), which the loop logs and retries. -/
inductive ExtractOutcome where
  | ok (doc_url pdf_url : String)
  | err
  deriving Repr, DecidableEq

/-- Observable events of the collect_urls retry loop: attempt i is the start
of the attempt with index i; sleepMs would be a wait between attempts (the
constructor exists so that the absence of any wait is expressible: the loop
body of src/utils/url_collector.py:79-193 contains no sleep call); commit is
one save_urls write with the given url_status; skip is the SKIPPED
short-circuit for an already processed url. -/
inductive CEv where
  | attempt (i : Nat)
  | sleepMs (ms : Nat)
  | commit (url_status : String)
  | skip
  deriving Repr, DecidableEq

/-- UrlCollector.max_retries (src/utils/url_collector.py:28). -/
def max_retries : Nat := 3

/-- The retry loop of UrlCollector.collect_urls
(src/utils/url_collector.py:79-193), the per-attempt page work abstracted
into the oracle extract (attempt index to outcome). A successful attempt
derives FOUND when either link is non-empty and FAILED otherwise, commits
one row through save_urls, and returns the links; a failing attempt logs and
continues, committing a single FAILED row only when it was the last attempt
(attempt == max_retries - 1). remaining counts the attempts left, i is the
index of the next attempt. -/
def collect_urls_go (extract : Nat → ExtractOutcome) :
    Nat → Nat → List CEv × String × String
  | 0, _ => ([], "", "")
  | remaining + 1, i =>
    match extract i with
    | .ok d p =>
      let url_status := if d ≠ "" ∨ p ≠ "" then "FOUND" else "FAILED"
      ([.attempt i, .commit url_status], d, p)
    | .err =>
      let tail := collect_urls_go extract remaining (i + 1)
      (.attempt i :: ((if remaining = 0 then [CEv.commit "FAILED"] else []) ++ tail.1),
        tail.2)

/-- UrlCollector.collect_urls (src/utils/url_collector.py:72-193): a url
already present in the ledger is reported SKIPPED without any attempt;
otherwise the retry loop runs with max_retries attempts starting at index 0.
The first component is the event trace, the second the returned
(doc_url, pdf_url) pair. -/
def collect_urls (processed_urls : List String) (url : String)
    (extract : Nat → ExtractOutcome) : List CEv × String × String :=
  if processed_urls.contains url then ([.skip], "", "")
  else collect_urls_go extract max_retries 0

/-- Number of sleep events in a trace. -/
def sleepCount (tr : List CEv) : Nat :=
  tr.countP (fun e => match e with | .sleepMs _ => true | _ => false)

/-- Number of attempt events in a trace. -/
def attemptCount (tr : List CEv) : Nat :=
  tr.countP (fun e => match e with | .attempt _ => true | _ => false)

/-- The commit events of a trace, in order. -/
def commits (tr : List CEv) : List CEv :=
  tr.filter (fun e => match e with | .commit _ => true | _ => false)

/-- C4 counterexample: for a url whose extraction always fails with a
recoverable error, collect_urls makes 3 attempts and performs no wait at all
between them (the trace holds zero sleep events), refuting the claimed
exponential backoff (base 2 seconds) between attempts; the loop simply
continues to the next attempt immediately. -/
theorem collect_urls_no_backoff :
    attemptCount (collect_urls [] "https://x/1" (fun _ => .err)).1 = 3 ∧
    sleepCount (collect_urls [] "https://x/1" (fun _ => .err)).1 = 0 := by
  constructor
  · rfl
  · rfl

/-- C4 (amended): for every url not yet in the ledger whose extraction
always raises a recoverable error, collect_urls makes exactly 3 attempts
with no wait between them and then commits a single FAILED record (the full
trace is attempt 0, attempt 1, attempt 2, one FAILED commit), returning
empty links. -/
theorem collect_urls_retry_bound (processed_urls : List String) (url : String)
    (extract : Nat → ExtractOutcome)
    (hnp : processed_urls.contains url = false)
    (hfail : ∀ n, extract n = .err) :
    collect_urls processed_urls url extract
      = ([.attempt 0, .attempt 1, .attempt 2, .commit "FAILED"], "", "") := by
  rw [collect_urls, if_neg (by rw [hnp]; simp)]
  show collect_urls_go extract 3 0 = _
  simp [collect_urls_go, hfail 0, hfail 1, hfail 2]

/-- C4 witness: the amended statement at a concrete always-failing
extractor. -/
theorem collect_urls_retry_bound_witness :
    collect_urls [] "https://x/1" (fun _ => .err)
      = ([.attempt 0, .attempt 1, .attempt 2, .commit "FAILED"], "", "") :=
  collect_urls_retry_bound [] "https://x/1" (fun _ => .err) rfl (fun _ => rfl)

/-- Count of ledger rows with the given url_status. -/
def countUrlStatus (led : Ledger) (s : String) : Nat :=
  (led.filter (fun r => r.url_status == s)).length

/-- Count of ledger rows with the given download_status. -/
def countDownloadStatus (led : Ledger) (s : String) : Nat :=
  (led.filter (fun r => r.download_status == s)).length

/-- The mutable counters of ProgressTracker (src/utils/progress.py:18-25):
total_urls, processed_count and the reporting threshold (100). -/
structure ProgressState where
  total_urls : Nat
  processed_count : Nat
  progress_threshold : Nat
  deriving Repr, DecidableEq

/-- Log lines emitted by ProgressTracker.update_progress: the per-call
processed line with the percentage (modelled in tenths of a percent with
natural division; the claim concerns only the zero-divisor guard, not
rounding), and the threshold stats block re-read from the ledger. -/
inductive LogEv where
  | processed (count total pct10 : Nat)
  | statsBlock (found failed skipped : Nat)
  deriving Repr, DecidableEq

/-- ProgressTracker.update_progress (src/utils/progress.py:48-83): when
total_urls is 0 the method returns at once (guarding the percentage division
processed_count / total_urls); otherwise it increments processed_count, logs
the count with its percentage, and at every multiple of progress_threshold
re-reads the ledger and logs the FOUND, FAILED and SKIPPED counts. -/
def update_progress (pt : ProgressState) (led : Ledger) :
    ProgressState × List LogEv :=
  if pt.total_urls = 0 then (pt, [])
  else
    let processed := pt.processed_count + 1
    let pct10 := processed * 1000 / pt.total_urls
    let logs :=
      if processed % pt.progress_threshold = 0 then
        [LogEv.processed processed pt.total_urls pct10,
         LogEv.statsBlock (countUrlStatus led "FOUND") (countUrlStatus led "FAILED")
           (countUrlStatus led "SKIPPED")]
      else [LogEv.processed processed pt.total_urls pct10]
    ({ pt with processed_count := processed }, logs)

/-- C10: a call to update_progress while total_urls is 0 returns the state
unchanged (processed_count not incremented) and emits no log line, so the
percentage processed_count / total_urls is never evaluated with a zero
divisor. -/
theorem update_progress_zero_total (pt : ProgressState) (led : Ledger)
    (h : pt.total_urls = 0) :
    update_progress pt led = (pt, []) := by
  rw [update_progress, if_pos h]

/-- A concrete tracker state whose total_urls is 0. -/
def zeroTotalState : ProgressState :=
  { total_urls := 0, processed_count := 5, progress_threshold := 100 }

/-- C10 witness: the guard at a concrete zero-total state. -/
theorem update_progress_zero_total_witness :
    update_progress zeroTotalState c1Ledger = (zeroTotalState, []) :=
  update_progress_zero_total zeroTotalState c1Ledger rfl

/-- Modelled from the spec: ProgressTracker.update_url_status is called at
src/utils/url_collector.py:456-488 to commit batch results but is not
defined anywhere under src (src/utils/progress.py has no such method); the
spec gives the WorkLedger upsert contract it implements: if a row with this
key exists, overwrite its mutable fields and timestamp, else append, with
download_status defaulting to NOT_STARTED on insert. -/
def update_url_status (led : Ledger) (t : Nat)
    (page_url doc_url pdf_url url_status : String) : Ledger :=
  if led.any (fun r => r.page_url == page_url) then
    led.map (fun r =>
      if r.page_url == page_url then
        { r with timestamp := t, doc_url := strToOpt doc_url,
                 pdf_url := strToOpt pdf_url, url_status := url_status }
      else r)
  else
    led ++ [{ timestamp := t, page_url := page_url, doc_url := strToOpt doc_url,
              pdf_url := strToOpt pdf_url, url_status := url_status,
              download_status := "NOT_STARTED" }]

theorem update_url_status_sets_status (led : Ledger) (t : Nat)
    (u doc_url pdf_url url_status : String) :
    ∀ r ∈ update_url_status led t u doc_url pdf_url url_status,
      r.page_url = u → r.url_status = url_status := by
  intro r hr he
  rw [update_url_status] at hr
  by_cases h : led.any (fun r => r.page_url == u) = true
  · rw [if_pos h] at hr
    obtain ⟨r0, hr0, rfl⟩ := List.mem_map.mp hr
    by_cases h0 : r0.page_url = u
    · simp [h0]
    · simp only [h0, beq_iff_eq, if_neg] at he ⊢
      exact absurd he h0
  · rw [if_neg h] at hr
    rcases List.mem_append.mp hr with hold | hnew
    · exfalso
      exact h (List.any_eq_true.mpr ⟨r, hold, by simpa using he⟩)
    · obtain rfl := List.mem_singleton.mp hnew
      rfl

theorem update_url_status_mem_key (led : Ledger) (t : Nat)
    (u doc_url pdf_url url_status : String) :
    ∃ r ∈ update_url_status led t u doc_url pdf_url url_status,
      r.page_url = u := by
  rw [update_url_status]
  by_cases h : led.any (fun r => r.page_url == u) = true
  · rw [if_pos h]
    obtain ⟨r0, hr0, hbeq⟩ := List.any_eq_true.mp h
    refine ⟨_, List.mem_map.mpr ⟨r0, hr0, rfl⟩, ?_⟩
    by_cases h0 : r0.page_url = u
    · simp [h0]
    · exact absurd (by simpa using hbeq) h0
  · rw [if_neg h]
    exact ⟨_, List.mem_append.mpr (Or.inr (List.mem_singleton.mpr rfl)), rfl⟩

theorem update_url_status_keeps_failed (led : Ledger) (t : Nat)
    (u2 doc_url pdf_url u : String)
    (hall : ∀ r ∈ led, r.page_url = u → r.url_status = "FAILED") :
    ∀ r ∈ update_url_status led t u2 doc_url pdf_url "FAILED",
      r.page_url = u → r.url_status = "FAILED" := by
  intro r hr he
  rw [update_url_status] at hr
  by_cases h : led.any (fun r => r.page_url == u2) = true
  · rw [if_pos h] at hr
    obtain ⟨r0, hr0, rfl⟩ := List.mem_map.mp hr
    by_cases h0 : r0.page_url = u2
    · simp [h0]
    · simp only [h0, beq_iff_eq, if_neg] at he ⊢
      exact hall r0 hr0 he
  · rw [if_neg h] at hr
    rcases List.mem_append.mp hr with hold | hnew
    · exact hall r hold he
    · obtain rfl := List.mem_singleton.mp hnew
      rfl

theorem update_url_status_keeps_mem (led : Ledger) (t : Nat)
    (u2 doc_url pdf_url url_status u : String)
    (hmem : ∃ r ∈ led, r.page_url = u) :
    ∃ r ∈ update_url_status led t u2 doc_url pdf_url url_status,
      r.page_url = u := by
  obtain ⟨r, hr, he⟩ := hmem
  rw [update_url_status]
  by_cases h : led.any (fun r => r.page_url == u2) = true
  · rw [if_pos h]
    refine ⟨_, List.mem_map.mpr ⟨r, hr, rfl⟩, ?_⟩
    by_cases h0 : (r.page_url == u2) = true
    · rw [if_pos h0]; exact he
    · rw [if_neg h0]; exact he
  · rw [if_neg h]
    exact ⟨r, List.mem_append.mpr (Or.inl hr), he⟩

/-- Outcome of retrieving one batch future in process_url_collection
(src/utils/url_collector.py:448-489): ok carries the list of
(page_url, doc_url, pdf_url) triples the batch returned; timedOut is
future.result(timeout=300) exceeding the 300 second wall clock; errored is
any other exception from the future. -/
inductive BatchOutcome where
  | ok (results : List (String × String × String))
  | timedOut
  | errored
  deriving Repr, DecidableEq

/-- The per-future result handling of process_url_collection
(src/utils/url_collector.py:440-489): a successful batch commits FOUND for
each triple with a non-empty link and FAILED for the rest; a timeout or any
other error bulk-commits FAILED for every URL that was assigned to that
future (thread_map[future]). Note the except TimeoutError arm actually names
playwright.async_api.Error because of the shadowed import at line 6, so a
real concurrent.futures timeout lands in the generic except Exception arm;
both arms run the identical bulk-FAILED loop, so the model merges them. -/
def processBatchOutcome (t : Nat) (urls : List String) (out : BatchOutcome)
    (led : Ledger) : Ledger :=
  match out with
  | .ok results =>
      results.foldl
        (fun led res =>
          match res with
          | (url, doc_url, pdf_url) =>
            if doc_url ≠ "" ∨ pdf_url ≠ "" then
              update_url_status led t url doc_url pdf_url "FOUND"
            else
              update_url_status led t url "" "" "FAILED")
        led
  | .timedOut =>
      urls.foldl (fun led u => update_url_status led t u "" "" "FAILED") led
  | .errored =>
      urls.foldl (fun led u => update_url_status led t u "" "" "FAILED") led

theorem fail_fold_preserves (t : Nat) (u : String) (urls : List String) :
    ∀ led : Ledger,
      ((∀ r ∈ led, r.page_url = u → r.url_status = "FAILED") ∧
        (∃ r ∈ led, r.page_url = u)) →
      ((∀ r ∈ urls.foldl (fun led u2 => update_url_status led t u2 "" "" "FAILED") led,
          r.page_url = u → r.url_status = "FAILED") ∧
        (∃ r ∈ urls.foldl (fun led u2 => update_url_status led t u2 "" "" "FAILED") led,
          r.page_url = u)) := by
  induction urls with
  | nil => intro led h; simpa using h
  | cons a rest ih =>
      intro led h
      simp only [List.foldl_cons]
      exact ih _ ⟨update_url_status_keeps_failed led t a "" "" u h.1,
        update_url_status_keeps_mem led t a "" "" "FAILED" u h.2⟩

theorem fail_fold_establishes (t : Nat) (u : String) (urls : List String)
    (hu : u ∈ urls) :
    ∀ led : Ledger,
      (∀ r ∈ urls.foldl (fun led u2 => update_url_status led t u2 "" "" "FAILED") led,
          r.page_url = u → r.url_status = "FAILED") ∧
      (∃ r ∈ urls.foldl (fun led u2 => update_url_status led t u2 "" "" "FAILED") led,
          r.page_url = u) := by
  induction urls with
  | nil => cases hu
  | cons a rest ih =>
      intro led
      simp only [List.foldl_cons]
      rcases List.mem_cons.mp hu with rfl | hrest
      · exact fail_fold_preserves t u rest _
          ⟨update_url_status_sets_status led t u "" "" "FAILED",
            update_url_status_mem_key led t u "" "" "FAILED"⟩
      · exact ih hrest _

/-- C5: when the result retrieval of a collection batch exceeds the 300
second timeout, every URL of that batch ends committed with url_status
FAILED in the ledger (all rows keyed by the URL carry FAILED), and the URL
is recorded (some row for it exists), so the timeout never leaves an
in-progress URL silently unrecorded. -/
theorem timed_out_batch_commits_failed (t : Nat) (urls : List String)
    (led : Ledger) (u : String) (hu : u ∈ urls) :
    (∀ r ∈ processBatchOutcome t urls .timedOut led,
        r.page_url = u → r.url_status = "FAILED") ∧
    (∃ r ∈ processBatchOutcome t urls .timedOut led, r.page_url = u) :=
  fail_fold_establishes t u urls hu led

/-- C5 witness: a concrete two-url batch that timed out, starting from the
one-row ledger. -/
theorem timed_out_batch_commits_failed_witness :
    (∀ r ∈ processBatchOutcome 7 ["https://x/1", "https://x/2"] .timedOut c1Ledger,
        r.page_url = "https://x/2" → r.url_status = "FAILED") ∧
    (∃ r ∈ processBatchOutcome 7 ["https://x/1", "https://x/2"] .timedOut c1Ledger,
        r.page_url = "https://x/2") :=
  timed_out_batch_commits_failed 7 ["https://x/1", "https://x/2"] c1Ledger
    "https://x/2" (by simp)

/-- Observable effects of one download task: the HTTP GET issued to the
file URL, and the write of the body to the target path. -/
inductive DlEv where
  | httpGet (url : String)
  | writeFile (path : String)
  deriving Repr, DecidableEq

/-- download_file (src/utils/download.py:184-204): issues one streaming GET
with browser-like headers; on HTTP 200 writes the body to filepath in
chunks and returns True, on any other status returns False. The network is
abstracted by the status code the server answers for this URL. -/
def download_file (url filepath : String) (respStatus : Nat) :
    Bool × List DlEv :=
  if respStatus = 200 then (true, [.httpGet url, .writeFile filepath])
  else (false, [.httpGet url])

/-- Modelled from the spec: the DownloadManager class is imported at
src/main.py:12 and src/utils/url_collector.py:9 and its process_downloads
method drives the whole download phase (src/main.py:247), but the class is
not defined anywhere under src; the spec describes its per-task behaviour:
skip, reporting immediately DONE, any task whose target file already exists
with non-zero size, and otherwise fetch through download_file (embedded
above from src/utils/download.py:184-204), a non-200 response being a
FAILED outcome. The filesystem is the association of existing paths to
their sizes. -/
def process_download_task (fs : List (String × Nat)) (url target_path : String)
    (respStatus : Nat) : String × List DlEv :=
  if 0 < (fs.lookup target_path).getD 0 then ("DONE", [])
  else
    let res := download_file url target_path respStatus
    (if res.1 then "DONE" else "FAILED", res.2)

/-- C6: a download task whose target file already exists with non-zero size
is reported DONE with no observable effect at all, in particular no HTTP
request, so re-running the download phase never re-downloads an existing
file. -/
theorem process_download_task_skips_existing (fs : List (String × Nat))
    (url target_path : String) (respStatus n : Nat)
    (hfs : fs.lookup target_path = some n) (hn : 0 < n) :
    process_download_task fs url target_path respStatus = ("DONE", []) := by
  rw [process_download_task, if_pos (by rw [hfs]; simpa using hn)]

/-- C6 witness: a concrete filesystem already holding the target at size
2048 bytes. -/
theorem process_download_task_skips_existing_witness :
    process_download_task [("downloads/doc/a.docx", 2048)]
      "https://static.example/a.docx" "downloads/doc/a.docx" 200 = ("DONE", []) :=
  process_download_task_skips_existing [("downloads/doc/a.docx", 2048)]
    "https://static.example/a.docx" "downloads/doc/a.docx" 200 2048 rfl
    (by decide)

/-- The final statistics ExitHandler._process_final_statistics computes from
the progress file (src/utils/signal_handler.py:119-136): totals by
url_status and download_status. The source dict additionally records the
live thread count and the wall-clock exit time, which are environment
values outside the ledger and are not modelled. -/
structure Stats where
  total : Nat
  found : Nat
  failed : Nat
  downloads_complete : Nat
  downloads_pending : Nat
  downloads_failed : Nat
  deriving Repr, DecidableEq

/-- The counts read back from the ledger, as in
src/utils/signal_handler.py:122-131. -/
def statsOf (led : Ledger) : Stats :=
  { total := led.length
    found := countUrlStatus led "FOUND"
    failed := countUrlStatus led "FAILED"
    downloads_complete := countDownloadStatus led "DONE"
    downloads_pending := countDownloadStatus led "NOT_STARTED"
    downloads_failed := countDownloadStatus led "FAILED" }

/-- The externally visible steps of ExitHandler._handle_exit
(src/utils/signal_handler.py:84-117): thread cleanup, browser process
cleanup, the summary flush of the final counts (the statistics block logged
and handed to the exit summary writer), component cleanup, terminal
restoration, and the process exit with its code. -/
inductive ExitAction where
  | cleanupThreads
  | cleanupProcesses
  | finalStats (s : Stats)
  | cleanupComponents
  | restoreTerminal
  | exitProcess (code : Nat)
  deriving Repr, DecidableEq

/-- The state _handle_exit consults: the exit_requested flag and the
registered progress tracker with its on-disk ledger (none when no tracker
was registered). -/
structure ExitState where
  exit_requested : Bool
  progress_tracker : Option Ledger
  deriving Repr, DecidableEq

/-- ExitHandler._handle_exit (src/utils/signal_handler.py:84-117). A second
interrupt (exit_requested already set) restores the terminal and calls
os._exit(1) immediately. A first interrupt sets exit_requested, cleans up
threads and browser processes, flushes the final statistics when a progress
tracker is registered, cleans up components, and in the finally block
restores the terminal and calls os._exit(0). -/
def handle_exit (st : ExitState) : ExitState × List ExitAction :=
  if st.exit_requested then
    (st, [.restoreTerminal, .exitProcess 1])
  else
    ({ st with exit_requested := true },
      [.cleanupThreads, .cleanupProcesses] ++
        (match st.progress_tracker with
         | some led => [.finalStats (statsOf led)]
         | none => []) ++
        [.cleanupComponents, .restoreTerminal, .exitProcess 0])

/-- True exactly on a process-exit action. -/
def isExitProcess (a : ExitAction) : Bool :=
  match a with
  | .exitProcess _ => true
  | _ => false

/-- C9 counterexample: on a first interrupt with a registered tracker, the
only process-exit the handler performs carries exit code 0 (os._exit(0) in
the finally block of src/utils/signal_handler.py:117), refuting the claim
that the process exits with a non-zero code; the non-zero exit (code 1) is
reserved for a second, forced interrupt. -/
theorem handle_exit_code_zero :
    ((handle_exit { exit_requested := false, progress_tracker := some c1Ledger }).2.filter
        isExitProcess) = [.exitProcess 0] := by
  rfl

/-- C9 (amended): on a first interrupt with a registered tracker, the
handler flushes the final counts by status from the ledger to the summary
log, restores the terminal state, and then exits the process with exit code
0 (the action sequence is exactly thread cleanup, process cleanup, the
statistics flush, component cleanup, terminal restoration, exit 0, and the
exit_requested flag is set); a non-zero exit happens only on a second
interrupt. -/
theorem handle_exit_first_interrupt (st : ExitState) (led : Ledger)
    (h1 : st.exit_requested = false) (h2 : st.progress_tracker = some led) :
    (handle_exit st).1.exit_requested = true ∧
    (handle_exit st).2 =
      [.cleanupThreads, .cleanupProcesses, .finalStats (statsOf led),
       .cleanupComponents, .restoreTerminal, .exitProcess 0] := by
  rw [handle_exit]
  rw [if_neg (by rw [h1]; simp)]
  rw [h2]
  exact ⟨rfl, rfl⟩

/-- C9 witness: the amended statement at the concrete first-interrupt
state. -/
theorem handle_exit_first_interrupt_witness :
    (handle_exit { exit_requested := false, progress_tracker := some c1Ledger }).1.exit_requested
      = true ∧
    (handle_exit { exit_requested := false, progress_tracker := some c1Ledger }).2 =
      [.cleanupThreads, .cleanupProcesses, .finalStats (statsOf c1Ledger),
       .cleanupComponents, .restoreTerminal, .exitProcess 0] :=
  handle_exit_first_interrupt
    { exit_requested := false, progress_tracker := some c1Ledger } c1Ledger rfl rfl

/-- The collection worker count of UrlCollector.__init__
(src/utils/url_collector.py:36-37): min(cpu_count - 1, 8) then at least 2,
the clamp of cpu_count - 1 into 2..8. -/
def url_threads (cpu_count : Nat) : Nat :=
  max 2 (min (cpu_count - 1) 8)

/-- The contiguous slicing of process_url_collection
(src/utils/url_collector.py:383-386): unprocessed_urls[i : i + batch_size]
for i = 0, batch_size, 2 * batch_size, and so on. Written with fuel (the
length of the remaining list bounds the number of slices whenever the slice
width k is at least 1). -/
def chunkAux : Nat → List α → Nat → List (List α)
  | _, [], _ => []
  | 0, _ :: _, _ => []
  | fuel + 1, x :: xs, k => (x :: xs).take k :: chunkAux fuel ((x :: xs).drop k) k

/-- The batch construction of process_url_collection
(src/utils/url_collector.py:380-389): batch_size = ceil(N / url_threads)
(math.ceil of the true division, which for naturals is
(N + T - 1) / T), then the contiguous batch_size-wide slices of the
unprocessed list. -/
def make_url_batches (urls : List String) (cpu_count : Nat) :
    List (List String) :=
  let T := url_threads cpu_count
  let batch_size := (urls.length + T - 1) / T
  chunkAux urls.length urls batch_size

theorem chunkAux_nil (α : Type) (fuel k : Nat) :
    chunkAux fuel ([] : List α) k = [] := by
  cases fuel <;> rfl

theorem chunkAux_flatten (α : Type) :
    ∀ (fuel : Nat) (xs : List α) (k : Nat), 1 ≤ k → xs.length ≤ fuel →
      (chunkAux fuel xs k).flatten = xs := by
  intro fuel
  induction fuel with
  | zero =>
      intro xs k hk hle
      cases xs with
      | nil => rfl
      | cons x l => exact absurd hle (by simp)
  | succ fuel ih =>
      intro xs k hk hle
      cases xs with
      | nil => rfl
      | cons x l =>
          show ((x :: l).take k :: chunkAux fuel ((x :: l).drop k) k).flatten = x :: l
          rw [List.flatten_cons]
          rw [ih ((x :: l).drop k) k hk (by simp at hle ⊢; omega)]
          exact List.take_append_drop k (x :: l)

theorem chunkAux_length_eq (α : Type) :
    ∀ (fuel : Nat) (xs : List α) (k : Nat), 1 ≤ k → xs.length ≤ fuel →
      (chunkAux fuel xs k).length = (xs.length + k - 1) / k := by
  intro fuel
  induction fuel with
  | zero =>
      intro xs k hk hle
      cases xs with
      | nil =>
          show 0 = (0 + k - 1) / k
          rw [Nat.div_eq_of_lt (by omega)]
      | cons x l => exact absurd hle (by simp)
  | succ fuel ih =>
      intro xs k hk hle
      cases xs with
      | nil =>
          show 0 = (0 + k - 1) / k
          rw [Nat.div_eq_of_lt (by omega)]
      | cons x l =>
          show (chunkAux fuel ((x :: l).drop k) k).length + 1
              = ((x :: l).length + k - 1) / k
          rw [ih ((x :: l).drop k) k hk (by simp at hle ⊢; omega)]
          rw [List.length_drop]
          by_cases hnk : (x :: l).length ≤ k
          · have h0 : (x :: l).length - k = 0 := by omega
            have hlen : 1 ≤ (x :: l).length := by simp
            have hone : ((x :: l).length + k - 1) / k = 1 :=
              Nat.div_eq_of_lt_le (by omega) (by omega)
            rw [h0, hone, Nat.div_eq_of_lt (by omega)]
          · have hgt : k < (x :: l).length := by omega
            have e1 : (x :: l).length - k + k - 1 = ((x :: l).length - 1 - k) + k := by
              omega
            have e2 : (x :: l).length + k - 1 = (((x :: l).length - 1 - k) + k) + k := by
              omega
            rw [e1, e2, Nat.add_div_right _ (by omega), Nat.add_div_right _ (by omega),
              Nat.add_div_right _ (by omega)]

theorem chunkAux_sizes (α : Type) :
    ∀ (fuel : Nat) (xs : List α) (k : Nat), 1 ≤ k → xs.length ≤ fuel →
      ∀ b ∈ chunkAux fuel xs k, b ≠ [] ∧ b.length ≤ k := by
  intro fuel
  induction fuel with
  | zero =>
      intro xs k hk hle b hb
      cases xs with
      | nil => cases hb
      | cons x l => exact absurd hle (by simp)
  | succ fuel ih =>
      intro xs k hk hle b hb
      cases xs with
      | nil => cases hb
      | cons x l =>
          rcases List.mem_cons.mp hb with rfl | htail
          · constructor
            · cases k with
              | zero => omega
              | succ k => simp
            · exact List.length_take_le k (x :: l)
          · exact ih ((x :: l).drop k) k hk (by simp at hle ⊢; omega) b htail

theorem chunkAux_full_except_last (α : Type) :
    ∀ (fuel : Nat) (xs : List α) (k : Nat), 1 ≤ k → xs.length ≤ fuel →
      ∀ i : Nat, i + 1 < (chunkAux fuel xs k).length →
        ∃ b, (chunkAux fuel xs k)[i]? = some b ∧ b.length = k := by
  intro fuel
  induction fuel with
  | zero =>
      intro xs k hk hle i hi
      cases xs with
      | nil =>
          rw [chunkAux_nil] at hi
          simp at hi
      | cons x l => exact absurd hle (by simp)
  | succ fuel ih =>
      intro xs k hk hle i hi
      cases xs with
      | nil =>
          rw [chunkAux_nil] at hi
          simp at hi
      | cons x l =>
          have hstep : chunkAux (fuel + 1) (x :: l) k
              = (x :: l).take k :: chunkAux fuel ((x :: l).drop k) k := rfl
          rw [hstep] at hi ⊢
          cases i with
          | zero =>
              have htail : chunkAux fuel ((x :: l).drop k) k ≠ [] := by
                intro hnil
                rw [hnil] at hi
                simp at hi
              have hdrop : (x :: l).drop k ≠ [] := by
                intro hnil
                rw [hnil, chunkAux_nil] at htail
                exact htail rfl
              have hklt : k < (x :: l).length := by
                by_contra hge
                exact hdrop (List.drop_eq_nil_of_le (by omega))
              refine ⟨(x :: l).take k, by simp, ?_⟩
              rw [List.length_take]
              omega
          | succ i =>
              have hi2 : i + 1 < (chunkAux fuel ((x :: l).drop k) k).length := by
                simpa using hi
              obtain ⟨b, hb, hbl⟩ :=
                ih ((x :: l).drop k) k hk (by simp at hle ⊢; omega) i hi2
              exact ⟨b, by simpa using hb, hbl⟩

theorem batch_count_le (n T : Nat) (hn : 1 ≤ n) (hT : 1 ≤ T) :
    (n + ((n + T - 1) / T) - 1) / ((n + T - 1) / T) ≤ T := by
  have hk1 : 1 ≤ (n + T - 1) / T := by
    rw [Nat.le_div_iff_mul_le (by omega)]
    omega
  have h1 := Nat.div_add_mod (n + T - 1) T
  have h2 : (n + T - 1) % T < T := Nat.mod_lt _ (by omega)
  have hNk : n ≤ ((n + T - 1) / T) * T := by
    have h3 : T * ((n + T - 1) / T) = ((n + T - 1) / T) * T := Nat.mul_comm _ _
    omega
  have hlt : (n + ((n + T - 1) / T) - 1) / ((n + T - 1) / T) < T + 1 := by
    rw [Nat.div_lt_iff_lt_mul (by omega)]
    have h4 : (T + 1) * ((n + T - 1) / T) = T * ((n + T - 1) / T) + (n + T - 1) / T :=
      Nat.succ_mul _ _
    have h3 : T * ((n + T - 1) / T) = ((n + T - 1) / T) * T := Nat.mul_comm _ _
    omega
  omega

/-- A concrete input refuting the claimed batch count: one unprocessed URL
on a 9-core machine. -/
def c8Urls : List String := ["https://x/1"]

/-- C8 counterexample: with cpu_count = 9 the thread count T is 8, but the
single unprocessed URL yields one batch, not T batches: the slicing yields
ceil(N / batch_size) batches, which is at most T yet in general fewer. -/
theorem make_url_batches_not_T_batches :
    (make_url_batches c8Urls 9).length = 1 ∧ url_threads 9 = 8 := by
  constructor
  · rfl
  · rfl

/-- C8 (amended): for every non-empty unprocessed URL list of length N and
every cpu_count, with T = clamp(cpu_count - 1, 2, 8) and
batch_size = ceil(N / T), the collection phase slices the list into at most
T contiguous batches; every batch is non-empty of size at most batch_size,
every batch except possibly the last has size exactly batch_size, and the
concatenation of the batches equals the original list, so every URL belongs
to exactly one batch. -/
theorem make_url_batches_partition (urls : List String) (cpu_count : Nat)
    (hne : urls ≠ []) :
    (make_url_batches urls cpu_count).flatten = urls ∧
    (make_url_batches urls cpu_count).length ≤ url_threads cpu_count ∧
    (∀ b ∈ make_url_batches urls cpu_count,
        b ≠ [] ∧ b.length ≤ (urls.length + url_threads cpu_count - 1) / url_threads cpu_count) ∧
    (∀ i : Nat, i + 1 < (make_url_batches urls cpu_count).length →
        ∃ b, (make_url_batches urls cpu_count)[i]? = some b ∧
          b.length = (urls.length + url_threads cpu_count - 1) / url_threads cpu_count) := by
  have hT : 1 ≤ url_threads cpu_count := by
    rw [url_threads]
    omega
  have hn : 1 ≤ urls.length := by
    cases urls with
    | nil => exact absurd rfl hne
    | cons x l => simp
  have hk : 1 ≤ (urls.length + url_threads cpu_count - 1) / url_threads cpu_count := by
    rw [Nat.le_div_iff_mul_le (by omega)]
    omega
  refine ⟨?_, ?_, ?_, ?_⟩
  · exact chunkAux_flatten String urls.length urls _ hk (Nat.le_refl _)
  · rw [show make_url_batches urls cpu_count
        = chunkAux urls.length urls
            ((urls.length + url_threads cpu_count - 1) / url_threads cpu_count) from rfl]
    rw [chunkAux_length_eq String urls.length urls _ hk (Nat.le_refl _)]
    exact batch_count_le urls.length (url_threads cpu_count) hn hT
  · exact chunkAux_sizes String urls.length urls _ hk (Nat.le_refl _)
  · exact chunkAux_full_except_last String urls.length urls _ hk (Nat.le_refl _)

/-- C8 witness: the partition properties on a concrete nine-url list with
cpu_count = 5 (T = 4, batch_size = 3). -/
theorem make_url_batches_partition_witness :
    (make_url_batches ["a", "b", "c", "d", "e", "f", "g", "h", "i"] 5).flatten
        = ["a", "b", "c", "d", "e", "f", "g", "h", "i"] ∧
    (make_url_batches ["a", "b", "c", "d", "e", "f", "g", "h", "i"] 5).length
        ≤ url_threads 5 ∧
    (∀ b ∈ make_url_batches ["a", "b", "c", "d", "e", "f", "g", "h", "i"] 5,
        b ≠ [] ∧ b.length ≤ (9 + url_threads 5 - 1) / url_threads 5) ∧
    (∀ i : Nat,
        i + 1 < (make_url_batches ["a", "b", "c", "d", "e", "f", "g", "h", "i"] 5).length →
        ∃ b, (make_url_batches ["a", "b", "c", "d", "e", "f", "g", "h", "i"] 5)[i]? = some b ∧
          b.length = (9 + url_threads 5 - 1) / url_threads 5) :=
  make_url_batches_partition ["a", "b", "c", "d", "e", "f", "g", "h", "i"] 5
    (by decide)

end Crawl
